import Mathlib

/-!
Verification development for the PhotoAgency repository (a Shopify lead-generation
CRM).  Python sources are shallowly embedded as Lean definitions:

* `scripts/shopify_complete.py` — storefront auditor CLI: platform verification,
  product statistics, the fast image-quality heuristic, lead scoring, and the
  shape of the `main` run (sentinel result, exit code, files written, stages run).
* `stores/services.py` — URL parsing / normalization / batch import with
  deduplication against the store directory.
* `analyzer/job_manager.py` — the in-memory job tracker and its retention sweep.
* `analyzer/services.py` — persisting an audit result onto a `Store` row.
* `scripts/selenium_extractor.py` — the discovery scraper's output-file writer.

Modelling conventions: Python floats are embedded as rationals (the scripts use
them only for means, rounding and threshold comparisons); Python dicts holding
jobs are embedded as insertion-ordered lists; `datetime.now()` values are passed
in explicitly (timestamps as naturals, formatted timestamps as a record of
calendar fields).  Truthiness of optional string fields follows Python: absent
or empty is falsy.
-/

namespace PhotoAgency

/-! ### Product catalog data (items of the `products.json` payload) -/

/-- One entry of a product's `images` list: `width`/`height` follow
`img.get('width', 0)` (0 encodes an absent hint), `alt` is `none` when the key
is absent. -/
structure PImage where
  width : Nat
  height : Nat
  alt : Option String
deriving DecidableEq

/-- One entry of a product's `variants` list; only `price` is read by the
scripts (`float(v.get('price', 0))`, embedded as a rational). -/
structure Variant where
  price : ℚ
deriving DecidableEq

/-- A catalog product as read by `shopify_complete.py`. -/
structure Product where
  images : List PImage
  variants : List Variant
deriving DecidableEq

/-- Python truthiness of an optional string (`not img.get('alt')` etc.):
absent or empty is falsy. -/
def truthyOpt : Option String → Bool
  | none => false
  | some s => !s.isEmpty

/-- Python `round(q, 1)` embedded on rationals (half-way ties idealized). -/
def round1 (q : ℚ) : ℚ := ((round (q * 10) : ℤ) : ℚ) / 10

/-- Python `round(q, 2)` embedded on rationals (half-way ties idealized). -/
def round2 (q : ℚ) : ℚ := ((round (q * 100) : ℤ) : ℚ) / 100

/-! ### `analyze_products` (shopify_complete.py lines 95-114)
Only the fields consumed by later stages (`total_count`, `price_avg`) plus the
price extremes are embedded; category/vendor frequency ordering is not needed
by any claim. -/

structure ProductsInfo where
  total_count : Nat
  price_min : ℚ
  price_max : ℚ
  price_avg : ℚ
deriving DecidableEq

/-- All strictly positive variant prices, in catalog order. -/
def positivePrices (products : List Product) : List ℚ :=
  (products.flatMap (fun p => p.variants.map Variant.price)).filter (fun q => 0 < q)

def analyze_products (products : List Product) : ProductsInfo :=
  if products.isEmpty then ⟨0, 0, 0, 0⟩
  else
    let prices := positivePrices products
    if prices.isEmpty then ⟨products.length, 0, 0, 0⟩
    else
      ⟨products.length,
       round2 (prices.foldl min (prices.headI)),
       round2 (prices.foldl max (prices.headI)),
       round2 (prices.sum / (prices.length : ℚ))⟩

/-! ### `analyze_product_images_fast` (shopify_complete.py lines 117-155) -/

structure ImgQualityFast where
  quality_score : Int
  total_images : Nat
  avg_per_product : ℚ
  single_image_count : Nat
  low_res_count : Nat
  no_alt_count : Nat
  issues : List String
deriving DecidableEq

/-- The code's low-resolution test `w and h and (w < 1000 or h < 1000)`:
both dimensions known (nonzero) and at least one below 1000. -/
def isLowRes (i : PImage) : Bool :=
  i.width != 0 && i.height != 0 && (i.width < 1000 || i.height < 1000)

/-- The loop accumulator `total_imgs`. -/
def totalImages (products : List Product) : Nat :=
  (products.flatMap Product.images).length

/-- The loop accumulator `single` (products with exactly one image). -/
def singleImageCount (products : List Product) : Nat :=
  (products.filter (fun p => p.images.length == 1)).length

/-- The loop accumulator `low_res`. -/
def lowResCount (products : List Product) : Nat :=
  ((products.flatMap Product.images).filter isLowRes).length

/-- The loop accumulator `no_alt` (`not img.get('alt')`). -/
def noAltCount (products : List Product) : Nat :=
  ((products.flatMap Product.images).filter (fun i => !truthyOpt i.alt)).length

/-- `avg = round(statistics.mean(per_product), 1)`; the mean over the
per-product image counts equals total images over product count. -/
def avgPerProduct (products : List Product) : ℚ :=
  round1 ((totalImages products : ℚ) / (products.length : ℚ))

def analyze_product_images_fast (products : List Product) : ImgQualityFast :=
  if products.isEmpty then
    ⟨0, 0, 0, 0, 0, 0, ["Nessun prodotto trovato"]⟩
  else
    let total_imgs := totalImages products
    let single := singleImageCount products
    let low_res := lowResCount products
    let no_alt := noAltCount products
    let avg := avgPerProduct products
    let score : Int :=
      100 - (if avg < 3 then 30 else 0)
          - (if (single : ℚ) > (products.length : ℚ) * (3 / 10) then 25 else 0)
          - (if 0 < low_res then 20 else 0)
          - (if (no_alt : ℚ) > (total_imgs : ℚ) * (1 / 2) then 15 else 0)
    let issues :=
      (if avg < 3 then
        ["Media immagini per prodotto bassa: " ++ toString avg ++ " (ottimale: 5+)"] else [])
      ++ (if (single : ℚ) > (products.length : ℚ) * (3 / 10) then
        [toString single ++ " prodotti con 1 sola immagine"] else [])
      ++ (if 0 < low_res then
        [toString low_res ++ " immagini sotto 1000px"] else [])
      ++ (if (no_alt : ℚ) > (total_imgs : ℚ) * (1 / 2) then
        [toString no_alt ++ " immagini senza alt text (SEO)"] else [])
    ⟨max 0 score, total_imgs, avg, single, low_res, no_alt,
     if issues.isEmpty then ["Nessun problema rilevato"] else issues⟩

/-! ### `calculate_lead_score` (shopify_complete.py lines 543-579)
The breakdown's `reason` strings (Python f-string float formatting) are not
embedded; the per-criterion points and caps are. -/

structure LeadScoreResult where
  total_score : Nat
  priority : String
  potential : String
  breakdown : List (String × Nat × Nat)
deriving DecidableEq

def calculate_lead_score (email : Option String) (products_info : ProductsInfo)
    (img_quality : ImgQualityFast) (social : List String) : LeadScoreResult :=
  let emailPts : Nat := if truthyOpt email then 20 else 0
  let n := products_info.total_count
  let ps : Nat := if n ≥ 50 then 15 else if n ≥ 20 then 10 else if n ≥ 10 then 5 else 0
  let iq := img_quality.quality_score
  let ims : Nat := if iq < 50 then 35 else if iq < 70 then 20 else 5
  let avg_p := products_info.price_avg
  let prs : Nat := if avg_p ≥ 100 then 15 else if avg_p ≥ 50 then 10 else 5
  let sc := (social.filter (fun v => !v.isEmpty)).length
  let ss : Nat := if sc ≥ 3 then 15 else if sc ≥ 1 then 8 else 0
  let score := emailPts + ps + ims + prs + ss
  let priority := if score ≥ 70 then "HOT" else if score ≥ 50 then "WARM" else "COLD"
  let potential := if score ≥ 70 then "ALTO" else if score ≥ 50 then "MEDIO" else "BASSO"
  ⟨score, priority, potential,
   [("Email", emailPts, 20), ("Prodotti", ps, 15), ("Qualità Immagini", ims, 35),
    ("Prezzo Medio", prs, 15), ("Social Media", ss, 15)]⟩

/-! ### `verify_shopify` and the `main` pipeline (shopify_complete.py) -/

/-- The parsed body of the catalog request: `malformed` models `r.json()`
raising; otherwise the parsed object may or may not carry a `"products"`
key. -/
inductive JsonBody
  | malformed
  | obj (products : Option (List Product))
deriving DecidableEq

/-- Outcome of `requests.get(f"{store_url}/products.json?limit=250", ...)`:
`exn` models a timeout / connection exception. -/
inductive HttpOutcome
  | exn
  | resp (status : Nat) (body : JsonBody)
deriving DecidableEq

structure VerifyResult where
  is_shopify : Bool
  products : List Product
deriving DecidableEq

/-- `verify_shopify` (lines 58-67): success needs HTTP 200, parseable JSON
and a `"products"` key; every other outcome (exception, non-200, malformed
body, missing key) yields `is_shopify = False`. -/
def verify_shopify : HttpOutcome → VerifyResult
  | .exn => ⟨false, []⟩
  | .resp status body =>
    if status = 200 then
      match body with
      | .malformed => ⟨false, []⟩
      | .obj (some ps) => ⟨true, ps⟩
      | .obj none => ⟨false, []⟩
    else ⟨false, []⟩

/-- The fields of the sentinel `RESULT_JSON` line that the claims refer to;
`none` encodes an absent key (the failure dict carries only `success` and
`error`). -/
structure SentinelResult where
  success : Bool
  error : Option String
  report_file : Option String
  lead_score : Option Nat
  product_count : Option Nat
deriving DecidableEq

/-- Network-derived inputs of the pipeline stages past verification; the
claims settled here do not depend on their values, so they are parameters. -/
structure AuditEnv where
  verifyResp : HttpOutcome
  contactEmail : Option String
  socialValues : List String

/-- Observable effects of one `main` run: sentinel lines printed, process
exit code, files written to the output directory, pipeline stages entered. -/
structure RunOutcome where
  sentinels : List SentinelResult
  exitCode : Nat
  filesWritten : List String
  stages : List String

/-- Control flow of `main` (lines 976-1090).  Platform verification gates the
whole pipeline: on failure exactly one failure sentinel is printed and the
process exits 1 before any later stage.  On success the later stages run and
exactly one success sentinel is printed — with `report_file` hard-coded to
`''` (line 1050) and no file written, since `main` never calls
`generate_html_report`. -/
def main_run (env : AuditEnv) : RunOutcome :=
  let shopify := verify_shopify env.verifyResp
  if !shopify.is_shopify then
    { sentinels := [⟨false, some "Non sembra uno store Shopify attivo", none, none, none⟩],
      exitCode := 1, filesWritten := [], stages := ["verify"] }
  else
    let products := shopify.products
    let products_info := analyze_products products
    let img_quality_fast := analyze_product_images_fast products
    let lead := calculate_lead_score env.contactEmail products_info img_quality_fast
      env.socialValues
    { sentinels := [⟨true, none, some "", some lead.total_score, some products_info.total_count⟩],
      exitCode := 0, filesWritten := [],
      stages := ["verify", "basic_info", "products", "img_quality_fast",
                 "contacts", "lead_scoring", "collect_images", "analyze_images"] }

/-! ### Store import (stores/services.py) -/

/-- One match of `parse_urls_from_text`'s storefront-URL regex, already split
the way `urlparse` splits it: the matched text is
`scheme ++ "://" ++ netloc ++ tail` (`tail` = trailing path/query junk the
regex tolerates). -/
structure RawUrl where
  scheme : String
  netloc : String
  tail : String
deriving DecidableEq

/-- `f"{parsed.scheme}://{parsed.netloc}"` — scheme plus host only. -/
structure BaseUrl where
  scheme : String
  netloc : String
deriving DecidableEq

def RawUrl.base (u : RawUrl) : BaseUrl := ⟨u.scheme, u.netloc⟩

def BaseUrl.toStr (b : BaseUrl) : String := b.scheme ++ "://" ++ b.netloc

/-- The `seen`-set deduplication loop of `parse_urls_from_text`: keeps the
first occurrence of each base URL, preserving order. -/
def dedupFirst : List BaseUrl → List BaseUrl → List BaseUrl
  | [], _ => []
  | x :: xs, seen =>
    if x ∈ seen then dedupFirst xs seen else x :: dedupFirst xs (x :: seen)

/-- `parse_urls_from_text` (lines 13-33) applied to the list of regex matches
found in the text (the regex scan itself is abstracted: its matches, in text
order, are the input). -/
def parse_urls_from_text (found : List RawUrl) : List BaseUrl :=
  dedupFirst (found.map RawUrl.base) []

/-- Python `str.lower()` on the ASCII host names handled here: per-character
lower-casing. -/
def lowerStr (s : String) : String := ⟨s.data.map Char.toLower⟩

/-- `normalize_url` (lines 36-42): lower-case the netloc, keep scheme+netloc.
(The `strip`/`https://`-prepending branches are no-ops on the base URLs
this path feeds in, which always carry an `http` scheme.) -/
def normalize_url (b : BaseUrl) : BaseUrl := ⟨b.scheme, lowerStr b.netloc⟩

def extract_domain (b : BaseUrl) : String := lowerStr b.netloc

/-- Python `str.title()` on ASCII text: a cased character is upper-cased when
the previous character is not cased, lower-cased otherwise. -/
def titleizeAux : List Char → Bool → List Char
  | [], _ => []
  | c :: cs, prevCased =>
    if c.isAlpha then
      (if prevCased then c.toLower else c.toUpper) :: titleizeAux cs true
    else c :: titleizeAux cs false

def titleize (s : String) : String := ⟨titleizeAux s.data false⟩

/-- `extract_name_from_url` (lines 50-57): the subdomain label
(`netloc.split('.')[0]`, i.e. the prefix before the first dot), hyphens and
underscores replaced by spaces (single-character replaces embedded as a
character map), title-cased. -/
def extract_name_from_url (b : BaseUrl) : String :=
  titleize ⟨(b.netloc.data.takeWhile (fun c => c ≠ '.')).map
    (fun c => if c = '-' then ' ' else if c = '_' then ' ' else c)⟩

/-- The subset of a `Store` row that the import service writes. -/
structure StoreRec where
  url : String
  domain : String
  name : String
  niche : String
  status : String
  notes : String
deriving DecidableEq

/-- The `defaults` dict of the `get_or_create` call, applied to the
normalized base URL. -/
def mkStore (b : BaseUrl) (niche source_label : String) : StoreRec :=
  { url := b.toStr, domain := extract_domain b, name := extract_name_from_url b,
    niche := niche, status := "new",
    notes := if source_label.isEmpty then "" else "Importato da: " ++ source_label }

/-- The per-URL loop of `import_stores_from_content` (lines 75-97): the store
directory `db` plays the role of the database table keyed on exact URL
equality; `get_or_create` appends a fresh row or reports a skip.  Returns the
updated directory, the created rows and the skipped URLs, each in loop
order. -/
def importLoop (niche lbl : String) :
    List StoreRec → List BaseUrl → List StoreRec × List StoreRec × List String
  | db, [] => (db, [], [])
  | db, b :: rest =>
    if db.any (fun s => s.url == (normalize_url b).toStr) then
      ((importLoop niche lbl db rest).1,
       (importLoop niche lbl db rest).2.1,
       (normalize_url b).toStr :: (importLoop niche lbl db rest).2.2)
    else
      ((importLoop niche lbl (db ++ [mkStore (normalize_url b) niche lbl]) rest).1,
       mkStore (normalize_url b) niche lbl
         :: (importLoop niche lbl (db ++ [mkStore (normalize_url b) niche lbl]) rest).2.1,
       (importLoop niche lbl (db ++ [mkStore (normalize_url b) niche lbl]) rest).2.2)

structure ImportOutcome where
  imported : List StoreRec
  skipped : List String
  errors : List (String × String)
  total_found : Nat
deriving DecidableEq

/-- `import_stores_from_content` (lines 60-104) against directory `db`.
Per-URL exceptions cannot arise in this embedding, so `errors` is always
empty (no claim exercises the exception path). -/
def import_stores_from_content (db : List StoreRec) (found : List RawUrl)
    (niche source_label : String) : List StoreRec × ImportOutcome :=
  let urls := parse_urls_from_text found
  let r := importLoop niche source_label db urls
  (r.1, ⟨r.2.1, r.2.2, [], urls.length⟩)

/-! ### Job tracker (analyzer/job_manager.py) -/

structure LogEntry where
  time : String
  level : String
  msg : String
deriving DecidableEq

/-- One element of a job's `results` list. -/
structure ResultEntry where
  url : String
  name : String
  success : Bool
  score : Nat
  priority : String
  error : String
deriving DecidableEq

/-- A job record.  The UUID identifier is embedded as a `Nat`; `started_at`
and `finished_at` are ISO timestamps embedded as naturals (ISO-8601 strings
from one clock compare exactly like the instants they denote). -/
structure Job where
  id : Nat
  jobType : String
  status : String
  total : Nat
  completed : Nat
  success : Nat
  errors : Nat
  current_url : Option String
  current_name : Option String
  logs : List LogEntry
  results : List ResultEntry
  started_at : Nat
  finished_at : Option Nat
  store_pk : Option Nat
  analysis_pk : Option Nat
deriving DecidableEq

/-- The job inserted by `create_job` (lines 18-40). -/
def create_job (id : Nat) (job_type : String) (total : Nat) (now : Nat) : Job :=
  { id := id, jobType := job_type, status := "running", total := total,
    completed := 0, success := 0, errors := 0,
    current_url := none, current_name := none, logs := [], results := [],
    started_at := now, finished_at := none, store_pk := none, analysis_pk := none }

/-- The retention sweep's sort key, `key=lambda x: x[1]['started_at']`. -/
def jobLE (a b : Job) : Prop := a.started_at ≤ b.started_at

instance : DecidableRel jobLE := fun a b =>
  inferInstanceAs (Decidable (a.started_at ≤ b.started_at))

instance : IsTotal Job jobLE := ⟨fun a b => Nat.le_total a.started_at b.started_at⟩

instance : IsTrans Job jobLE := ⟨fun _ _ _ => Nat.le_trans⟩

/-- `completed[:len(_jobs) - max_jobs]` of `cleanup_old_jobs`: the non-RUNNING
jobs, stably sorted by start time ascending (Python's stable `sort`; the ISO
`started_at` strings order exactly like the instants they denote), truncated
to the excess over the cap. -/
def victimsOf (jobs : List Job) (max_jobs : Nat) : List Job :=
  (List.insertionSort jobLE (jobs.filter (fun j => j.status != "running"))).take
    (jobs.length - max_jobs)

/-- `cleanup_old_jobs` (lines 125-136): when the registry exceeds the cap,
delete the victim jobs (by id).  The registry dict is embedded as an
insertion-ordered list with distinct ids. -/
def cleanup_old_jobs (jobs : List Job) (max_jobs : Nat) : List Job :=
  if max_jobs < jobs.length then
    jobs.filter (fun j => !(((victimsOf jobs max_jobs).map Job.id).contains j.id))
  else jobs

/-- The tracker's mutating operations, with every `datetime.now()` reading
passed in explicitly. -/
inductive TrackerOp
  | create (id : Nat) (job_type : String) (total : Nat) (now : Nat)
  | add_log (id : Nat) (time level msg : String)
  | set_current (id : Nat) (url name : String)
  | mark_store_done (id : Nat) (url name : String) (ok : Bool) (score : Nat)
      (priority error : String)
  | complete_job (id : Nat) (analysis_pk : Option Nat) (now : Nat)
  | fail_job (id : Nat) (error : String) (time : String) (now : Nat)
  | cleanup (max_jobs : Nat)

/-- `_jobs.get(job_id)` followed by in-place mutation: rewrite the matching
record, leave the rest untouched (no-op when the id is unknown). -/
def updateJob (jobs : List Job) (id : Nat) (f : Job → Job) : List Job :=
  jobs.map (fun j => if j.id = id then f j else j)

/-- The mutation performed by `mark_store_done` (lines 77-95). -/
def bumpDone (url name : String) (ok : Bool) (score : Nat) (priority error : String)
    (j : Job) : Job :=
  { j with completed := j.completed + 1,
           success := j.success + (if ok then 1 else 0),
           errors := j.errors + (if ok then 0 else 1),
           results := j.results ++ [⟨url, name, ok, score, priority, error⟩] }

def applyOp (jobs : List Job) : TrackerOp → List Job
  | .create id jt total now => jobs ++ [create_job id jt total now]
  | .add_log id time level msg =>
      updateJob jobs id (fun j => { j with logs := j.logs ++ [⟨time, level, msg⟩] })
  | .set_current id url name =>
      updateJob jobs id (fun j =>
        { j with current_url := some url, current_name := some name })
  | .mark_store_done id url name ok score priority err =>
      updateJob jobs id (bumpDone url name ok score priority err)
  | .complete_job id apk now =>
      updateJob jobs id (fun j =>
        { j with status := "completed", finished_at := some now,
                 current_url := none, current_name := none,
                 analysis_pk := match apk with
                   | some a => if a ≠ 0 then some a else j.analysis_pk
                   | none => j.analysis_pk })
  | .fail_job id err time now =>
      updateJob jobs id (fun j =>
        { j with status := "error", finished_at := some now,
                 logs := j.logs ++ [⟨time, "error", "Errore fatale: " ++ err⟩] })
  | .cleanup cap => cleanup_old_jobs jobs cap

/-- The registry after a sequence of operations, starting from the empty
registry the process boots with. -/
def applyOps (ops : List TrackerOp) : List Job := ops.foldl applyOp []

def isMark : TrackerOp → Bool
  | .mark_store_done .. => true
  | _ => false

/-! ### Persisting a successful audit onto a Store (analyzer/services.py) -/

/-- The `Store` columns (stores/models.py); `updated_at`/`discovered_at` are
framework-managed timestamps and are not part of the embedding. -/
structure StoreRow where
  url : String
  myshopify_url : String
  name : String
  domain : String
  niche : String
  status : String
  tags : String
  email : String
  phone : String
  whatsapp_url : String
  piva : String
  address : String
  instagram : String
  facebook : String
  tiktok : String
  linkedin : String
  notes : String
deriving DecidableEq

/-- The contact/social fields of the parsed sentinel result consumed by the
Store update (every one defaults to `''` in the auditor's output). -/
structure AuditContactData where
  email : String
  phone : String
  whatsapp_url : String
  piva : String
  address : String
  instagram : String
  facebook : String
  tiktok : String
  linkedin : String
  store_title : String
deriving DecidableEq

/-- `if val and not getattr(store, field): setattr(store, field, val)` -/
def fillIfBlank (old val : String) : String :=
  if !val.isEmpty && old.isEmpty then val else old

/-- The Store mutation of `run_analysis` on a successful result
(analyzer/services.py lines 112-127): status forced to ANALYZED, each of the
9 contact/social fields filled only if blank, name set from the scraped
title only if blank, everything else untouched. -/
def run_analysis_store_update (store : StoreRow) (rd : AuditContactData) : StoreRow :=
  { store with
    status := "analyzed",
    email := fillIfBlank store.email rd.email,
    phone := fillIfBlank store.phone rd.phone,
    whatsapp_url := fillIfBlank store.whatsapp_url rd.whatsapp_url,
    piva := fillIfBlank store.piva rd.piva,
    address := fillIfBlank store.address rd.address,
    instagram := fillIfBlank store.instagram rd.instagram,
    facebook := fillIfBlank store.facebook rd.facebook,
    tiktok := fillIfBlank store.tiktok rd.tiktok,
    linkedin := fillIfBlank store.linkedin rd.linkedin,
    name := fillIfBlank store.name rd.store_title }

/-! ### Discovery scraper output file (scripts/selenium_extractor.py) -/

/-- A wall-clock reading, as the calendar fields `strftime` formats. -/
structure Timestamp where
  year : Nat
  month : Nat
  day : Nat
  hour : Nat
  minute : Nat
  second : Nat
deriving DecidableEq

def pad2 (n : Nat) : String := if n < 10 then "0" ++ toString n else toString n

/-- `strftime('%Y-%m-%d %H:%M:%S')` — the format `save_results` writes. -/
def fmtYmd (t : Timestamp) : String :=
  toString t.year ++ "-" ++ pad2 t.month ++ "-" ++ pad2 t.day ++ " " ++
  pad2 t.hour ++ ":" ++ pad2 t.minute ++ ":" ++ pad2 t.second

/-- Modelled from the spec: the `DD/MM/YYYY HH:MM:SS` header-timestamp format
the spec asserts for the discovery output file — defined only to compare the
spec's wording against the code's actual format. -/
def fmtDmy (t : Timestamp) : String :=
  pad2 t.day ++ "/" ++ pad2 t.month ++ "/" ++ toString t.year ++ " " ++
  pad2 t.hour ++ ":" ++ pad2 t.minute ++ ":" ++ pad2 t.second

/-- `save_results` (lines 153-168): `none` when the URL list is empty
(nothing is written), otherwise the lines of the output file.  Python's
`sorted` on strings is embedded as an insertion sort by `≤` on strings. -/
def save_results (now : Timestamp) (urls : List String) : Option (List String) :=
  if urls.isEmpty then none
  else some (("# Generato: " ++ fmtYmd now)
             :: ("# Store trovati: " ++ toString urls.length)
             :: List.insertionSort (fun a b : String => a ≤ b) urls)

/-! ### Concrete inputs used by witnesses and counterexamples -/

/-- Spec §8 example 3, product side: a well-shot 1200×1200 image with alt
text. -/
def demoImgOk : PImage := ⟨1200, 1200, some "alt text"⟩

/-- Spec §8 example 3: the one low-resolution image. -/
def demoImgLow : PImage := ⟨800, 800, some "alt text"⟩

/-- Spec §8 example 3: 10 products with 2 images each, one image
low-resolution. -/
def demoProducts : List Product :=
  List.replicate 9 ⟨[demoImgOk, demoImgOk], []⟩ ++ [⟨[demoImgOk, demoImgLow], []⟩]

/-- A run whose catalog endpoint answers 404 (not a storefront). -/
def demoEnvFail : AuditEnv := ⟨.resp 404 (.obj none), none, []⟩

/-- A run whose catalog endpoint answers 200 with an empty catalog. -/
def demoEnvOk : AuditEnv := ⟨.resp 200 (.obj (some [])), none, []⟩

/-- Spec §8 example 6: the upper-case/trailing-slash variant of a store URL. -/
def demoRawUpper : RawUrl := ⟨"https", "Store.myshopify.com", "/"⟩

/-- Spec §8 example 6: the lower-case variant of the same store URL. -/
def demoRawLower : RawUrl := ⟨"https", "store.myshopify.com", ""⟩

/-- The shared normalized base URL of the two variants. -/
def demoBase : BaseUrl := ⟨"https", "store.myshopify.com"⟩

/-- A fixed wall-clock reading for the discovery-output counterexample. -/
def demoTs : Timestamp := ⟨2025, 12, 31, 23, 59, 58⟩

/-- A single harvested URL (a one-element list sidesteps string-order
evaluation inside the kernel). -/
def demoUrls : List String := ["https://aaa.myshopify.com"]

/-- Two harvested URLs for the amended-format witness. -/
def demoUrls2 : List String := ["https://bbb.myshopify.com", "https://aaa.myshopify.com"]

/-- Three tracker jobs: two finished (ids 1, 2, started at 10 and 20) and a
running one that is chronologically the oldest (id 3, started at 5). -/
def demoJobs : List Job :=
  [{ create_job 1 "single" 1 10 with status := "completed" },
   { create_job 2 "single" 1 20 with status := "error" },
   create_job 3 "bulk" 4 5]

/-- A short operation history exercising every kind of tracker operation. -/
def demoOps : List TrackerOp :=
  [.create 1 "single" 1 10,
   .add_log 1 "10:00:00" "info" "start",
   .set_current 1 "https://a.myshopify.com" "A",
   .mark_store_done 1 "https://a.myshopify.com" "A" true 72 "HOT" "",
   .complete_job 1 (some 7) 11,
   .create 2 "bulk" 2 12,
   .mark_store_done 2 "https://b.myshopify.com" "B" false 0 "" "boom",
   .fail_job 2 "boom" "10:05:00" 13,
   .cleanup 1]

/-- The state of job 2 after `demoOps` (job 1 is evicted by the final
sweep with cap 1). -/
def demoJobFinal : Job :=
  { id := 2, jobType := "bulk", status := "error", total := 2,
    completed := 1, success := 0, errors := 1,
    current_url := none, current_name := none,
    logs := [⟨"10:05:00", "error", "Errore fatale: boom"⟩],
    results := [⟨"https://b.myshopify.com", "B", false, 0, "", "boom"⟩],
    started_at := 12, finished_at := some 13, store_pk := none, analysis_pk := none }

/-! ## Theorems -/

/-- C2: the lead score is the sum of the five components (email 20/0; product
count 15/10/5/0 at thresholds 50/20/10; image quality 35/20/5 at thresholds
50/70; average price 15/10/5 at thresholds 100/50; populated social platforms
15/8/0 at thresholds 3/1); the total lies in 0..100; priority is HOT/WARM/COLD
and potential is ALTO/MEDIO/BASSO at the shared thresholds 70/50. -/
theorem lead_score_is_sum_of_components (email : Option String)
    (products_info : ProductsInfo) (img_quality : ImgQualityFast) (social : List String) :
    (calculate_lead_score email products_info img_quality social).total_score =
        (if truthyOpt email then 20 else 0)
      + (if products_info.total_count ≥ 50 then 15
         else if products_info.total_count ≥ 20 then 10
         else if products_info.total_count ≥ 10 then 5 else 0)
      + (if img_quality.quality_score < 50 then 35
         else if img_quality.quality_score < 70 then 20 else 5)
      + (if products_info.price_avg ≥ 100 then 15
         else if products_info.price_avg ≥ 50 then 10 else 5)
      + (if (social.filter (fun v => !v.isEmpty)).length ≥ 3 then 15
         else if (social.filter (fun v => !v.isEmpty)).length ≥ 1 then 8 else 0)
    ∧ (calculate_lead_score email products_info img_quality social).total_score ≤ 100
    ∧ (calculate_lead_score email products_info img_quality social).priority =
        (if (calculate_lead_score email products_info img_quality social).total_score ≥ 70
         then "HOT"
         else if (calculate_lead_score email products_info img_quality social).total_score ≥ 50
         then "WARM" else "COLD")
    ∧ (calculate_lead_score email products_info img_quality social).potential =
        (if (calculate_lead_score email products_info img_quality social).total_score ≥ 70
         then "ALTO"
         else if (calculate_lead_score email products_info img_quality social).total_score ≥ 50
         then "MEDIO" else "BASSO") := by
  refine ⟨rfl, ?_, rfl, rfl⟩
  show (if truthyOpt email then 20 else 0)
      + (if products_info.total_count ≥ 50 then 15
         else if products_info.total_count ≥ 20 then 10
         else if products_info.total_count ≥ 10 then 5 else 0)
      + (if img_quality.quality_score < 50 then 35
         else if img_quality.quality_score < 70 then 20 else 5)
      + (if products_info.price_avg ≥ 100 then 15
         else if products_info.price_avg ≥ 50 then 10 else 5)
      + (if (social.filter (fun v => !v.isEmpty)).length ≥ 3 then 15
         else if (social.filter (fun v => !v.isEmpty)).length ≥ 1 then 8 else 0) ≤ 100
  split_ifs <;> decide

/-- C3: for a non-empty product list the fast heuristic returns 100 minus the
four deductions (30 for low rounded average, 25 for a >30% single-image share,
20 for any low-resolution image, 15 for a >50% missing-alt share), floored at
0, and the issues list has exactly one entry per triggered deduction, or is
the single placeholder when none triggered. -/
theorem fast_image_quality_spec (products : List Product) (hp : products ≠ []) :
    (analyze_product_images_fast products).quality_score =
      max 0 (100 - (if avgPerProduct products < 3 then 30 else 0)
          - (if (singleImageCount products : ℚ) > (products.length : ℚ) * (3 / 10)
             then 25 else 0)
          - (if 0 < lowResCount products then 20 else 0)
          - (if (noAltCount products : ℚ) > (totalImages products : ℚ) * (1 / 2)
             then 15 else 0) : Int)
    ∧ (analyze_product_images_fast products).issues.length =
        (if (if avgPerProduct products < 3 then 1 else 0)
          + (if (singleImageCount products : ℚ) > (products.length : ℚ) * (3 / 10)
             then 1 else 0)
          + (if 0 < lowResCount products then 1 else 0)
          + (if (noAltCount products : ℚ) > (totalImages products : ℚ) * (1 / 2)
             then 1 else 0) = 0
         then 1
         else (if avgPerProduct products < 3 then 1 else 0)
          + (if (singleImageCount products : ℚ) > (products.length : ℚ) * (3 / 10)
             then 1 else 0)
          + (if 0 < lowResCount products then 1 else 0)
          + (if (noAltCount products : ℚ) > (totalImages products : ℚ) * (1 / 2)
             then 1 else 0))
    ∧ (¬ avgPerProduct products < 3 →
       ¬ (singleImageCount products : ℚ) > (products.length : ℚ) * (3 / 10) →
       ¬ 0 < lowResCount products →
       ¬ (noAltCount products : ℚ) > (totalImages products : ℚ) * (1 / 2) →
       (analyze_product_images_fast products).issues = ["Nessun problema rilevato"]) := by
  have hne : products.isEmpty = false := by
    cases products with
    | nil => exact absurd rfl hp
    | cons a l => rfl
  unfold analyze_product_images_fast
  rw [hne]
  simp only [Bool.false_eq_true, if_false]
  split_ifs <;> simp_all [List.length_append]

/-- Witness for C3: the spec's worked example — 10 products with 2 images
each (average 2 triggers the 30-point deduction), one low-resolution image
(20-point deduction), all alt texts present, no single-image products:
score 50 with exactly two issue strings. -/
theorem fast_image_quality_spec_witness :
    demoProducts ≠ [] ∧
    ((analyze_product_images_fast demoProducts).quality_score = 50 ∧
     (analyze_product_images_fast demoProducts).issues.length = 2) := by
  have h := fast_image_quality_spec demoProducts (by decide)
  have e1 : totalImages demoProducts = 20 := by decide
  have e2 : singleImageCount demoProducts = 0 := by decide
  have e3 : lowResCount demoProducts = 1 := by decide
  have e4 : noAltCount demoProducts = 0 := by decide
  have e5 : demoProducts.length = 10 := by decide
  have havg : avgPerProduct demoProducts = 2 := by
    rw [avgPerProduct, e1, e5]; norm_num [round1]
  rw [havg, e1, e2, e3, e4, e5] at h
  norm_num at h
  exact ⟨by decide, h.1, h.2⟩

/-- Helper: `fillIfBlank` in propositional form. -/
theorem fillIfBlank_eq (old val : String) :
    fillIfBlank old val = if old = "" ∧ val ≠ "" then val else old := by
  unfold fillIfBlank
  rcases eq_or_ne old "" with h | h <;> rcases eq_or_ne val "" with h2 | h2 <;>
    simp [h, h2, String.isEmpty_iff]

/-- C5: persisting a successful audit fills each of the 9 contact/social
fields only when the Store's field is blank (a non-blank field is never
overwritten), sets the name from the scraped title only when blank, sets the
status to ANALYZED, and changes no other Store column. -/
theorem store_update_fill_only_if_blank (s : StoreRow) (rd : AuditContactData) :
    (run_analysis_store_update s rd).email
      = (if s.email = "" ∧ rd.email ≠ "" then rd.email else s.email)
    ∧ (run_analysis_store_update s rd).phone
      = (if s.phone = "" ∧ rd.phone ≠ "" then rd.phone else s.phone)
    ∧ (run_analysis_store_update s rd).whatsapp_url
      = (if s.whatsapp_url = "" ∧ rd.whatsapp_url ≠ "" then rd.whatsapp_url else s.whatsapp_url)
    ∧ (run_analysis_store_update s rd).piva
      = (if s.piva = "" ∧ rd.piva ≠ "" then rd.piva else s.piva)
    ∧ (run_analysis_store_update s rd).address
      = (if s.address = "" ∧ rd.address ≠ "" then rd.address else s.address)
    ∧ (run_analysis_store_update s rd).instagram
      = (if s.instagram = "" ∧ rd.instagram ≠ "" then rd.instagram else s.instagram)
    ∧ (run_analysis_store_update s rd).facebook
      = (if s.facebook = "" ∧ rd.facebook ≠ "" then rd.facebook else s.facebook)
    ∧ (run_analysis_store_update s rd).tiktok
      = (if s.tiktok = "" ∧ rd.tiktok ≠ "" then rd.tiktok else s.tiktok)
    ∧ (run_analysis_store_update s rd).linkedin
      = (if s.linkedin = "" ∧ rd.linkedin ≠ "" then rd.linkedin else s.linkedin)
    ∧ (run_analysis_store_update s rd).name
      = (if s.name = "" ∧ rd.store_title ≠ "" then rd.store_title else s.name)
    ∧ (run_analysis_store_update s rd).status = "analyzed"
    ∧ (run_analysis_store_update s rd).url = s.url
    ∧ (run_analysis_store_update s rd).myshopify_url = s.myshopify_url
    ∧ (run_analysis_store_update s rd).domain = s.domain
    ∧ (run_analysis_store_update s rd).niche = s.niche
    ∧ (run_analysis_store_update s rd).tags = s.tags
    ∧ (run_analysis_store_update s rd).notes = s.notes :=
  ⟨fillIfBlank_eq _ _, fillIfBlank_eq _ _, fillIfBlank_eq _ _, fillIfBlank_eq _ _,
   fillIfBlank_eq _ _, fillIfBlank_eq _ _, fillIfBlank_eq _ _, fillIfBlank_eq _ _,
   fillIfBlank_eq _ _, fillIfBlank_eq _ _, rfl, rfl, rfl, rfl, rfl, rfl, rfl⟩

/-- C4: whenever the catalog request does not come back as HTTP 200 with a
JSON object carrying a `"products"` key (exception/timeout, non-200,
malformed body, missing key), the run prints exactly one failure sentinel
with an explanatory error, exits 1, writes no file, and enters no pipeline
stage after verification. -/
theorem verification_failure_aborts_run (env : AuditEnv)
    (h : ∀ ps : List Product,
      env.verifyResp ≠ HttpOutcome.resp 200 (JsonBody.obj (some ps))) :
    (main_run env).sentinels
      = [⟨false, some "Non sembra uno store Shopify attivo", none, none, none⟩]
    ∧ (main_run env).exitCode = 1
    ∧ (main_run env).filesWritten = []
    ∧ (main_run env).stages = ["verify"]
    ∧ "basic_info" ∉ (main_run env).stages
    ∧ "products" ∉ (main_run env).stages
    ∧ "contacts" ∉ (main_run env).stages
    ∧ "lead_scoring" ∉ (main_run env).stages := by
  have hv : (verify_shopify env.verifyResp).is_shopify = false := by
    cases henv : env.verifyResp with
    | exn => rfl
    | resp st body =>
      rcases eq_or_ne st 200 with rfl | hst
      · cases body with
        | malformed => simp [verify_shopify]
        | obj op =>
          cases op with
          | none => simp [verify_shopify]
          | some ps => exact absurd henv (h ps)
      · simp [verify_shopify, hst]
  simp [main_run, hv]

/-- Witness for C4: a 404 answer from the catalog endpoint. -/
theorem verification_failure_aborts_run_witness :
    (∀ ps : List Product,
      demoEnvFail.verifyResp ≠ HttpOutcome.resp 200 (JsonBody.obj (some ps)))
    ∧ ((main_run demoEnvFail).sentinels
        = [⟨false, some "Non sembra uno store Shopify attivo", none, none, none⟩]
      ∧ (main_run demoEnvFail).exitCode = 1
      ∧ (main_run demoEnvFail).filesWritten = []
      ∧ (main_run demoEnvFail).stages = ["verify"]
      ∧ "basic_info" ∉ (main_run demoEnvFail).stages
      ∧ "products" ∉ (main_run demoEnvFail).stages
      ∧ "contacts" ∉ (main_run demoEnvFail).stages
      ∧ "lead_scoring" ∉ (main_run demoEnvFail).stages) :=
  ⟨fun ps hc => by injection hc with h1 _; exact absurd h1 (by decide),
   verification_failure_aborts_run demoEnvFail
     (fun ps hc => by injection hc with h1 _; exact absurd h1 (by decide))⟩

/-- C1 (bug evidence): a run that passes platform verification emits one
success sentinel whose `report_file` field is the empty string, and writes no
file at all — `main` never calls `generate_html_report`, so no
`report_<name>_<timestamp>.html` file exists and `report_file` cannot name
one. -/
theorem successful_run_writes_no_report (env : AuditEnv) (ps : List Product)
    (h : env.verifyResp = HttpOutcome.resp 200 (JsonBody.obj (some ps))) :
    (main_run env).exitCode = 0
    ∧ ((main_run env).sentinels.map SentinelResult.success) = [true]
    ∧ ((main_run env).sentinels.map SentinelResult.report_file) = [some ""]
    ∧ (main_run env).filesWritten = [] := by
  unfold main_run
  rw [h]
  exact ⟨rfl, rfl, rfl, rfl⟩

/-- Witness for C1: a 200 answer with an (empty) catalog. -/
theorem successful_run_writes_no_report_witness :
    demoEnvOk.verifyResp = HttpOutcome.resp 200 (JsonBody.obj (some []))
    ∧ ((main_run demoEnvOk).exitCode = 0
      ∧ ((main_run demoEnvOk).sentinels.map SentinelResult.success) = [true]
      ∧ ((main_run demoEnvOk).sentinels.map SentinelResult.report_file) = [some ""]
      ∧ (main_run demoEnvOk).filesWritten = []) :=
  ⟨rfl, successful_run_writes_no_report demoEnvOk [] rfl⟩

/-- Helper: every processed URL lands in exactly one of `imported`/`skipped`. -/
theorem importLoop_length (niche lbl : String) (urls : List BaseUrl) :
    ∀ db : List StoreRec,
      (importLoop niche lbl db urls).2.1.length + (importLoop niche lbl db urls).2.2.length
        = urls.length := by
  induction urls with
  | nil => intro db; rfl
  | cons b rest ih =>
    intro db
    have h1 := ih db
    have h2 := ih (db ++ [mkStore (normalize_url b) niche lbl])
    unfold importLoop
    split <;> simp <;> omega

/-- C8 counterexample: the same storefront URL matched twice in one text
contributes 1 to `total_found`, not 2 — `parse_urls_from_text` already
deduplicates within the batch before the count is taken. -/
theorem total_found_counterexample :
    (import_stores_from_content [] [demoRawUpper, demoRawUpper] "altro" "").2.total_found = 1
    ∧ (import_stores_from_content [] [demoRawUpper, demoRawUpper] "altro" "").2.total_found ≠ 2 := by
  constructor <;> decide

/-- C8 (amended): `total_found` equals the number of distinct base URLs
found in the text (first-seen deduplication within the batch) — i.e. the
count before the *database-level* deduplication into imported/skipped — and
every counted URL is reported either as imported or as skipped. -/
theorem total_found_counts_distinct_found_urls (db : List StoreRec)
    (found : List RawUrl) (niche lbl : String) :
    (import_stores_from_content db found niche lbl).2.total_found
      = (parse_urls_from_text found).length
    ∧ (import_stores_from_content db found niche lbl).2.total_found
      = (import_stores_from_content db found niche lbl).2.imported.length
        + (import_stores_from_content db found niche lbl).2.skipped.length :=
  ⟨rfl, (importLoop_length niche lbl (parse_urls_from_text found) db).symm⟩

/-- C9 counterexample: the discovery output header's timestamp is written as
`YYYY-MM-DD HH:MM:SS` (`strftime('%Y-%m-%d %H:%M:%S')`), not in the
`DD/MM/YYYY HH:MM:SS` format the claim states. -/
theorem discovery_header_counterexample :
    save_results demoTs demoUrls
      = some ["# Generato: 2025-12-31 23:59:58", "# Store trovati: 1",
              "https://aaa.myshopify.com"]
    ∧ ("# Generato: 2025-12-31 23:59:58" : String) ≠ "# Generato: " ++ fmtDmy demoTs := by
  constructor <;> decide

/-- C9 (amended): for a non-empty deduplicated URL list the output is line 1
`# Generato: ` + the timestamp in `YYYY-MM-DD HH:MM:SS` format, line 2
`# Store trovati: ` + the URL count, then the URLs sorted ascending, one per
line, still without duplicates. -/
theorem discovery_output_format (now : Timestamp) (urls : List String)
    (hne : urls ≠ []) (hnd : urls.Nodup) :
    ∃ lines, save_results now urls = some lines
      ∧ lines.headI = "# Generato: " ++ fmtYmd now
      ∧ lines.tail.headI = "# Store trovati: " ++ toString urls.length
      ∧ lines.length = urls.length + 2
      ∧ (lines.drop 2).Perm urls
      ∧ (lines.drop 2).Sorted (fun a b : String => a ≤ b)
      ∧ (lines.drop 2).Nodup := by
  have hne' : urls.isEmpty = false := by
    cases urls with
    | nil => exact absurd rfl hne
    | cons a l => rfl
  haveI ht : IsTotal String (fun a b : String => a ≤ b) := ⟨fun a b => le_total a b⟩
  haveI hr : IsTrans String (fun a b : String => a ≤ b) := ⟨fun a b c => le_trans⟩
  refine ⟨("# Generato: " ++ fmtYmd now)
      :: ("# Store trovati: " ++ toString urls.length)
      :: List.insertionSort (fun a b : String => a ≤ b) urls,
    ?_, rfl, rfl, ?_, ?_, ?_, ?_⟩
  · simp [save_results, hne']
  · simp
  · exact List.perm_insertionSort _ _
  · exact List.sorted_insertionSort _ _
  · exact ((List.perm_insertionSort _ _).nodup_iff).2 hnd

/-- Witness for C9's amended format theorem: two distinct harvested URLs. -/
theorem discovery_output_format_witness :
    (demoUrls2 ≠ [] ∧ demoUrls2.Nodup)
    ∧ (∃ lines, save_results demoTs demoUrls2 = some lines
      ∧ lines.headI = "# Generato: " ++ fmtYmd demoTs
      ∧ lines.tail.headI = "# Store trovati: " ++ toString demoUrls2.length
      ∧ lines.length = demoUrls2.length + 2
      ∧ (lines.drop 2).Perm demoUrls2
      ∧ (lines.drop 2).Sorted (fun a b : String => a ≤ b)
      ∧ (lines.drop 2).Nodup) :=
  ⟨⟨by decide, by decide⟩, discovery_output_format demoTs demoUrls2 (by decide) (by decide)⟩

/-- Helper: deduplication only keeps URLs that occur in the input. -/
theorem dedupFirst_subset :
    ∀ (xs seen : List BaseUrl) (b : BaseUrl), b ∈ dedupFirst xs seen → b ∈ xs := by
  intro xs
  induction xs with
  | nil => intro seen b hb; simp [dedupFirst] at hb
  | cons x rest ih =>
    intro seen b hb
    unfold dedupFirst at hb
    by_cases h : x ∈ seen
    · rw [if_pos h] at hb
      exact List.mem_cons_of_mem _ (ih _ _ hb)
    · rw [if_neg h] at hb
      rcases List.mem_cons.1 hb with hb' | hb'
      · exact hb' ▸ List.mem_cons_self _ _
      · exact List.mem_cons_of_mem _ (ih _ _ hb')

/-- Helper: every parsed base URL is the base of some regex match. -/
theorem parse_mem (found : List RawUrl) (b : BaseUrl)
    (hb : b ∈ parse_urls_from_text found) : ∃ u ∈ found, b = u.base := by
  have := dedupFirst_subset (found.map RawUrl.base) [] b hb
  obtain ⟨u, hu, rfl⟩ := List.mem_map.1 this
  exact ⟨u, hu, rfl⟩

/-- Helper: a non-empty text yields a non-empty parsed URL list. -/
theorem parse_ne_nil (found : List RawUrl) (h : found ≠ []) :
    parse_urls_from_text found ≠ [] := by
  cases found with
  | nil => exact absurd rfl h
  | cons u rest => simp [parse_urls_from_text, dedupFirst]

/-- Helper: when every URL in the batch is already present (it normalizes to
the URL `U` of an existing row), nothing is created: the directory is
unchanged and every URL is reported as skipped. -/
theorem importLoop_all_dup (niche lbl : String) (U : String) :
    ∀ (urls : List BaseUrl) (db : List StoreRec),
      (∀ b ∈ urls, (normalize_url b).toStr = U) → (∃ s ∈ db, s.url = U) →
      importLoop niche lbl db urls
        = (db, [], urls.map (fun b => (normalize_url b).toStr)) := by
  intro urls
  induction urls with
  | nil => intro db _ _; rfl
  | cons b rest ih =>
    intro db hall hdb
    have hbU : (normalize_url b).toStr = U := hall b (List.mem_cons_self b rest)
    have hany : (db.any fun s => s.url == (normalize_url b).toStr) = true := by
      obtain ⟨s, hs, hsu⟩ := hdb
      exact List.any_eq_true.2 ⟨s, hs, by rw [hbU]; exact beq_iff_eq.2 hsu⟩
    unfold importLoop
    rw [if_pos hany, ih db (fun x hx => hall x (List.mem_cons_of_mem b hx)) hdb]
    simp

/-- Helper: when every URL of a non-empty batch normalizes to the same base
`B` and the directory has no row for `B`, exactly the first occurrence
creates a row and every later occurrence is skipped. -/
theorem importLoop_fresh_all_same (niche lbl : String) (B : BaseUrl) :
    ∀ (urls : List BaseUrl) (db : List StoreRec),
      (∀ b ∈ urls, normalize_url b = B) → (∀ s ∈ db, s.url ≠ B.toStr) → urls ≠ [] →
      importLoop niche lbl db urls
        = (db ++ [mkStore B niche lbl], [mkStore B niche lbl],
           urls.tail.map (fun b => (normalize_url b).toStr)) := by
  intro urls
  cases urls with
  | nil => intro db _ _ hne; exact absurd rfl hne
  | cons b rest =>
    intro db hall hdb _
    have hb : normalize_url b = B := hall b (List.mem_cons_self b rest)
    have hany : (db.any fun s => s.url == (normalize_url b).toStr) = false := by
      rw [hb]
      refine List.any_eq_false.mpr ?_
      intro s hs
      simpa using hdb s hs
    unfold importLoop
    rw [if_neg (by simp [hany]), hb]
    rw [importLoop_all_dup niche lbl B.toStr rest (db ++ [mkStore B niche lbl])
      (fun x hx => by rw [hall x (List.mem_cons_of_mem b hx)])
      ⟨mkStore B niche lbl, by simp, rfl⟩]
    simp

/-- Helper: within one batch the created rows carry pairwise distinct URLs,
in first-seen order of the processed (normalized) URLs, and none of them
collides with a URL already in the directory. -/
theorem importLoop_imported_props (niche lbl : String) (urls : List BaseUrl) :
    ∀ db : List StoreRec,
      ((importLoop niche lbl db urls).2.1.map StoreRec.url).Nodup
      ∧ ((importLoop niche lbl db urls).2.1.map StoreRec.url).Sublist
          (urls.map (fun b => (normalize_url b).toStr))
      ∧ ∀ x ∈ (importLoop niche lbl db urls).2.1, ∀ t ∈ db, t.url ≠ x.url := by
  induction urls with
  | nil => intro db; refine ⟨by simp [importLoop], by simp [importLoop], ?_⟩
           intro x hx
           simp [importLoop] at hx
  | cons b rest ih =>
    intro db
    unfold importLoop
    split
    next h =>
      obtain ⟨ihn, ihs, ihf⟩ := ih db
      exact ⟨ihn, ihs.cons _, ihf⟩
    next h =>
      obtain ⟨ihn, ihs, ihf⟩ := ih (db ++ [mkStore (normalize_url b) niche lbl])
      have hnotany : ∀ s ∈ db, ¬ s.url = (normalize_url b).toStr := by
        intro s hs
        have := List.any_eq_false.mp (Bool.of_not_eq_true h) s hs
        simpa using this
      have hfresh : ∀ x ∈ (importLoop niche lbl
          (db ++ [mkStore (normalize_url b) niche lbl]) rest).2.1,
          (mkStore (normalize_url b) niche lbl).url ≠ x.url := by
        intro x hx
        exact ihf x hx _ (by simp)
      refine ⟨?_, ?_, ?_⟩
      · refine List.nodup_cons.2 ⟨?_, ihn⟩
        intro hmem
        obtain ⟨x, hx, hxe⟩ := List.mem_map.1 hmem
        exact hfresh x hx hxe.symm
      · exact ihs.cons₂ _
      · intro x hx t ht
        rcases List.mem_cons.1 hx with rfl | hx'
        · exact fun he => hnotany t ht he
        · exact ihf x hx' t (List.mem_append_left _ ht)

/-- C7: two imports whose matched URLs all normalize to the same base URL
`B` (e.g. case / trailing-slash variants of one host): the first import
creates exactly one Store row, the second creates none, leaves the directory
untouched and reports `B` as skipped; moreover, in any single batch the
created rows have pairwise distinct URLs in first-seen processing order. -/
theorem import_dedup_between_batches (db : List StoreRec) (t1 t2 : List RawUrl)
    (B : BaseUrl) (niche lbl : String)
    (h1 : ∀ u ∈ t1, normalize_url u.base = B) (ht1 : t1 ≠ [])
    (h2 : ∀ u ∈ t2, normalize_url u.base = B) (ht2 : t2 ≠ [])
    (hdb : ∀ s ∈ db, s.url ≠ B.toStr) :
    (import_stores_from_content db t1 niche lbl).2.imported = [mkStore B niche lbl]
    ∧ (import_stores_from_content db t1 niche lbl).1 = db ++ [mkStore B niche lbl]
    ∧ (import_stores_from_content
        (import_stores_from_content db t1 niche lbl).1 t2 niche lbl).2.imported = []
    ∧ (import_stores_from_content
        (import_stores_from_content db t1 niche lbl).1 t2 niche lbl).1
      = (import_stores_from_content db t1 niche lbl).1
    ∧ B.toStr ∈ (import_stores_from_content
        (import_stores_from_content db t1 niche lbl).1 t2 niche lbl).2.skipped
    ∧ (∀ (db' : List StoreRec) (found' : List RawUrl),
        ((import_stores_from_content db' found' niche lbl).2.imported.map StoreRec.url).Nodup
        ∧ ((import_stores_from_content db' found' niche lbl).2.imported.map
            StoreRec.url).Sublist
            ((parse_urls_from_text found').map (fun b => (normalize_url b).toStr))) := by
  have hp1 : ∀ c ∈ parse_urls_from_text t1, normalize_url c = B := by
    intro c hc
    obtain ⟨u, hu, rfl⟩ := parse_mem t1 c hc
    exact h1 u hu
  have hrun1 := importLoop_fresh_all_same niche lbl B (parse_urls_from_text t1) db hp1 hdb
    (parse_ne_nil t1 ht1)
  have e1i : (import_stores_from_content db t1 niche lbl).2.imported
      = [mkStore B niche lbl] := by
    simp [import_stores_from_content, hrun1]
  have e1db : (import_stores_from_content db t1 niche lbl).1
      = db ++ [mkStore B niche lbl] := by
    simp [import_stores_from_content, hrun1]
  have hp2 : ∀ c ∈ parse_urls_from_text t2, (normalize_url c).toStr = B.toStr := by
    intro c hc
    obtain ⟨u, hu, rfl⟩ := parse_mem t2 c hc
    rw [h2 u hu]
  have hrun2 := importLoop_all_dup niche lbl B.toStr (parse_urls_from_text t2)
    (db ++ [mkStore B niche lbl]) hp2 ⟨mkStore B niche lbl, by simp, rfl⟩
  have e2i : (import_stores_from_content
      (import_stores_from_content db t1 niche lbl).1 t2 niche lbl).2.imported = [] := by
    rw [e1db]
    simp [import_stores_from_content, hrun2]
  have e2db : (import_stores_from_content
      (import_stores_from_content db t1 niche lbl).1 t2 niche lbl).1
      = (import_stores_from_content db t1 niche lbl).1 := by
    rw [e1db]
    simp [import_stores_from_content, hrun2]
  have e2sk : B.toStr ∈ (import_stores_from_content
      (import_stores_from_content db t1 niche lbl).1 t2 niche lbl).2.skipped := by
    rw [e1db]
    show B.toStr ∈ (importLoop niche lbl (db ++ [mkStore B niche lbl])
      (parse_urls_from_text t2)).2.2
    rw [hrun2]
    obtain ⟨c0, rest2, hcons⟩ : ∃ c0 r, parse_urls_from_text t2 = c0 :: r := by
      cases hp : parse_urls_from_text t2 with
      | nil => exact absurd hp (parse_ne_nil t2 ht2)
      | cons c0 r => exact ⟨c0, r, rfl⟩
    rw [hcons]
    exact List.mem_cons.2 (Or.inl (hp2 c0 (hcons ▸ List.mem_cons_self c0 rest2)).symm)
  refine ⟨e1i, e1db, e2i, e2db, e2sk, ?_⟩
  intro db' found'
  obtain ⟨hn, hs, _⟩ := importLoop_imported_props niche lbl (parse_urls_from_text found') db'
  exact ⟨hn, hs⟩

/-- Witness for C7: importing `https://Store.myshopify.com/` and then
`https://store.myshopify.com` into an empty directory. -/
theorem import_dedup_between_batches_witness :
    ((∀ u ∈ [demoRawUpper], normalize_url u.base = demoBase)
      ∧ ([demoRawUpper] : List RawUrl) ≠ []
      ∧ (∀ u ∈ [demoRawLower], normalize_url u.base = demoBase)
      ∧ ([demoRawLower] : List RawUrl) ≠ []
      ∧ (∀ s ∈ ([] : List StoreRec), s.url ≠ demoBase.toStr))
    ∧ ((import_stores_from_content [] [demoRawUpper] "altro" "").2.imported
        = [mkStore demoBase "altro" ""]
      ∧ (import_stores_from_content [] [demoRawUpper] "altro" "").1
        = [] ++ [mkStore demoBase "altro" ""]
      ∧ (import_stores_from_content
          (import_stores_from_content [] [demoRawUpper] "altro" "").1
          [demoRawLower] "altro" "").2.imported = []
      ∧ (import_stores_from_content
          (import_stores_from_content [] [demoRawUpper] "altro" "").1
          [demoRawLower] "altro" "").1
        = (import_stores_from_content [] [demoRawUpper] "altro" "").1
      ∧ demoBase.toStr ∈ (import_stores_from_content
          (import_stores_from_content [] [demoRawUpper] "altro" "").1
          [demoRawLower] "altro" "").2.skipped
      ∧ (∀ (db' : List StoreRec) (found' : List RawUrl),
          ((import_stores_from_content db' found' "altro" "").2.imported.map
            StoreRec.url).Nodup
          ∧ ((import_stores_from_content db' found' "altro" "").2.imported.map
              StoreRec.url).Sublist
              ((parse_urls_from_text found').map
                (fun b => (normalize_url b).toStr)))) :=
  ⟨⟨by decide, by decide, by decide, by decide, by decide⟩,
   import_dedup_between_batches [] [demoRawUpper] [demoRawLower] demoBase "altro" ""
     (by decide) (by decide) (by decide) (by decide) (by decide)⟩

/-- Helper: victims are among the non-running jobs. -/
theorem victims_mem_completed (jobs : List Job) (cap : Nat) :
    ∀ v ∈ victimsOf jobs cap, v ∈ jobs.filter (fun j => j.status != "running") := by
  intro v hv
  have hs : v ∈ List.insertionSort jobLE (jobs.filter (fun j => j.status != "running")) :=
    (List.take_sublist _ _).subset hv
  exact (List.perm_insertionSort jobLE _).subset hs

/-- Helper: victims are existing jobs. -/
theorem victims_subset_jobs (jobs : List Job) (cap : Nat) :
    ∀ v ∈ victimsOf jobs cap, v ∈ jobs := fun v hv =>
  List.mem_of_mem_filter (victims_mem_completed jobs cap v hv)

/-- Helper: no victim is RUNNING. -/
theorem victims_nonrunning (jobs : List Job) (cap : Nat) :
    ∀ v ∈ victimsOf jobs cap, v.status ≠ "running" := by
  intro v hv
  have := List.of_mem_filter (victims_mem_completed jobs cap v hv)
  simpa using this

/-- Helper: with distinct job ids, the victim ids are distinct too. -/
theorem victims_id_nodup (jobs : List Job) (cap : Nat)
    (hid : (jobs.map Job.id).Nodup) :
    ((victimsOf jobs cap).map Job.id).Nodup := by
  have h1 : ((jobs.filter (fun j => j.status != "running")).map Job.id).Nodup :=
    hid.sublist ((List.filter_sublist _).map Job.id)
  have h2 : ((List.insertionSort jobLE
      (jobs.filter (fun j => j.status != "running"))).map Job.id).Nodup :=
    (((List.perm_insertionSort jobLE _).map Job.id).nodup_iff).2 h1
  exact h2.sublist ((List.take_sublist _ _).map Job.id)

/-- Helper: membership in the swept registry, characterized by id. -/
theorem mem_cleanup_iff (jobs : List Job) (cap : Nat) (hlen : cap < jobs.length)
    (j : Job) :
    j ∈ cleanup_old_jobs jobs cap
      ↔ j ∈ jobs ∧ j.id ∉ (victimsOf jobs cap).map Job.id := by
  unfold cleanup_old_jobs
  rw [if_pos hlen]
  simp [List.mem_filter]

/-- Helper: with distinct ids, a job whose id is a victim id is itself a
victim. -/
theorem mem_victims_of_id (jobs : List Job) (cap : Nat)
    (hid : (jobs.map Job.id).Nodup) (j : Job) (hj : j ∈ jobs)
    (hin : j.id ∈ (victimsOf jobs cap).map Job.id) : j ∈ victimsOf jobs cap := by
  obtain ⟨v, hv, hvid⟩ := List.mem_map.1 hin
  have hvj : v = j :=
    List.inj_on_of_nodup_map hid (victims_subset_jobs jobs cap v hv) hj hvid
  exact hvj ▸ hv

/-- C6: the retention sweep (i) is a no-op when the registry is within the
cap, (ii) never evicts a RUNNING job, (iii) never invents jobs, (iv) removes
only non-RUNNING jobs and only oldest-first (every removed job started no
later than every surviving non-RUNNING job), and (v) removes exactly enough
to land back on the cap whenever enough finished jobs exist. -/
theorem cleanup_retention_spec (jobs : List Job) (cap : Nat)
    (hid : (jobs.map Job.id).Nodup) :
    (jobs.length ≤ cap → cleanup_old_jobs jobs cap = jobs)
    ∧ (∀ j ∈ jobs, j.status = "running" → j ∈ cleanup_old_jobs jobs cap)
    ∧ (∀ j ∈ cleanup_old_jobs jobs cap, j ∈ jobs)
    ∧ (∀ j ∈ jobs, j ∉ cleanup_old_jobs jobs cap →
        j.status ≠ "running"
        ∧ ∀ k ∈ cleanup_old_jobs jobs cap, k.status ≠ "running" →
            j.started_at ≤ k.started_at)
    ∧ (cap < jobs.length →
        jobs.length - cap ≤ (jobs.filter (fun j => j.status != "running")).length →
        (cleanup_old_jobs jobs cap).length = cap) := by
  by_cases hlen : cap < jobs.length
  case neg =>
    have hcl : cleanup_old_jobs jobs cap = jobs := by
      unfold cleanup_old_jobs
      rw [if_neg hlen]
    refine ⟨fun _ => hcl, ?_, ?_, ?_, ?_⟩
    · intro j hj _
      rw [hcl]
      exact hj
    · intro j hj
      rw [hcl] at hj
      exact hj
    · intro j hj hnot
      rw [hcl] at hnot
      exact absurd hj hnot
    · intro h
      exact absurd h hlen
  case pos =>
    have hnoop : jobs.length ≤ cap → cleanup_old_jobs jobs cap = jobs := by
      intro h
      exact absurd h (by omega)
    have hsub : ∀ j ∈ cleanup_old_jobs jobs cap, j ∈ jobs := by
      intro j hj
      exact ((mem_cleanup_iff jobs cap hlen j).1 hj).1
    have hrun : ∀ j ∈ jobs, j.status = "running" → j ∈ cleanup_old_jobs jobs cap := by
      intro j hj hst
      refine (mem_cleanup_iff jobs cap hlen j).2 ⟨hj, ?_⟩
      intro hin
      exact victims_nonrunning jobs cap j (mem_victims_of_id jobs cap hid j hj hin) hst
    have hremoved : ∀ j ∈ jobs, j ∉ cleanup_old_jobs jobs cap →
        j ∈ victimsOf jobs cap := by
      intro j hj hnot
      by_cases hin : j.id ∈ (victimsOf jobs cap).map Job.id
      · exact mem_victims_of_id jobs cap hid j hj hin
      · exact absurd ((mem_cleanup_iff jobs cap hlen j).2 ⟨hj, hin⟩) hnot
    have hsorted : List.Sorted jobLE
        (List.insertionSort jobLE (jobs.filter (fun j => j.status != "running"))) :=
      List.sorted_insertionSort jobLE _
    have hsplit := List.take_append_drop (jobs.length - cap)
      (List.insertionSort jobLE (jobs.filter (fun j => j.status != "running")))
    have hcross : ∀ x ∈ victimsOf jobs cap,
        ∀ y ∈ (List.insertionSort jobLE
          (jobs.filter (fun j => j.status != "running"))).drop (jobs.length - cap),
        jobLE x y := by
      have hp : List.Pairwise jobLE
          ((victimsOf jobs cap) ++ (List.insertionSort jobLE
            (jobs.filter (fun j => j.status != "running"))).drop (jobs.length - cap)) := by
        unfold victimsOf
        rw [hsplit]
        exact hsorted
      exact (List.pairwise_append.1 hp).2.2
    have holdest : ∀ j ∈ jobs, j ∉ cleanup_old_jobs jobs cap →
        j.status ≠ "running"
        ∧ ∀ k ∈ cleanup_old_jobs jobs cap, k.status ≠ "running" →
            j.started_at ≤ k.started_at := by
      intro j hj hnot
      have hjv := hremoved j hj hnot
      refine ⟨victims_nonrunning jobs cap j hjv, ?_⟩
      intro k hk hkst
      have hkj := hsub k hk
      have hkid : k.id ∉ (victimsOf jobs cap).map Job.id :=
        ((mem_cleanup_iff jobs cap hlen k).1 hk).2
      have hkc : k ∈ jobs.filter (fun j => j.status != "running") :=
        List.mem_filter.2 ⟨hkj, by simpa using hkst⟩
      have hks : k ∈ List.insertionSort jobLE
          (jobs.filter (fun j => j.status != "running")) :=
        ((List.perm_insertionSort jobLE _).mem_iff).2 hkc
      have hkdrop : k ∈ (List.insertionSort jobLE
          (jobs.filter (fun j => j.status != "running"))).drop (jobs.length - cap) := by
        rcases (List.mem_append.1 (hsplit ▸ hks)) with h | h
        · exact absurd (List.mem_map_of_mem Job.id h) hkid
        · exact h
      exact hcross j hjv k hkdrop
    have hcount : cap < jobs.length →
        jobs.length - cap ≤ (jobs.filter (fun j => j.status != "running")).length →
        (cleanup_old_jobs jobs cap).length = cap := by
      intro _ henough
      have hvlen : (victimsOf jobs cap).length = jobs.length - cap := by
        unfold victimsOf
        rw [List.length_take, List.length_insertionSort]
        omega
      have hjnodup : jobs.Nodup := hid.of_map
      have hvnodup : (victimsOf jobs cap).Nodup :=
        (victims_id_nodup jobs cap hid).of_map
      have hperm : List.Perm
          (jobs.filter (fun j => ((victimsOf jobs cap).map Job.id).contains j.id))
          (victimsOf jobs cap) := by
        refine (List.perm_ext_iff_of_nodup (hjnodup.filter _) hvnodup).2 ?_
        intro x
        constructor
        · intro hx
          have hx1 := List.mem_of_mem_filter hx
          have hx2 := List.of_mem_filter hx
          exact mem_victims_of_id jobs cap hid x hx1 (by simpa using hx2)
        · intro hx
          refine List.mem_filter.2 ⟨victims_subset_jobs jobs cap x hx, ?_⟩
          simpa using List.mem_map_of_mem Job.id hx
      have hpart : (jobs.filter
            (fun j => !(((victimsOf jobs cap).map Job.id).contains j.id))).length
          + (jobs.filter
            (fun j => ((victimsOf jobs cap).map Job.id).contains j.id)).length
          = jobs.length := by
        have := List.filter_append_perm
          (fun j => !(((victimsOf jobs cap).map Job.id).contains j.id)) jobs
        have hlen2 := this.length_eq
        rw [List.length_append] at hlen2
        have hnn : (jobs.filter (fun j =>
            !!(((victimsOf jobs cap).map Job.id).contains j.id)))
            = jobs.filter (fun j => ((victimsOf jobs cap).map Job.id).contains j.id) := by
          simp
        rw [hnn] at hlen2
        omega
      have hcl : cleanup_old_jobs jobs cap = jobs.filter
          (fun j => !(((victimsOf jobs cap).map Job.id).contains j.id)) := by
        unfold cleanup_old_jobs
        rw [if_pos hlen]
      rw [hcl]
      have := hperm.length_eq
      omega
    exact ⟨hnoop, hrun, hsub, holdest, hcount⟩

/-- Witness for C6: three jobs (cap 2) — two finished ones started at 10 and
20 and a RUNNING one that is chronologically the oldest (started at 5); the
sweep must evict exactly the finished job started at 10. -/
theorem cleanup_retention_spec_witness :
    ((demoJobs.map Job.id).Nodup ∧ demoJobs.length ≤ 3)
    ∧ ((demoJobs.length ≤ 2 → cleanup_old_jobs demoJobs 2 = demoJobs)
      ∧ (∀ j ∈ demoJobs, j.status = "running" → j ∈ cleanup_old_jobs demoJobs 2)
      ∧ (∀ j ∈ cleanup_old_jobs demoJobs 2, j ∈ demoJobs)
      ∧ (∀ j ∈ demoJobs, j ∉ cleanup_old_jobs demoJobs 2 →
          j.status ≠ "running"
          ∧ ∀ k ∈ cleanup_old_jobs demoJobs 2, k.status ≠ "running" →
              j.started_at ≤ k.started_at)
      ∧ (2 < demoJobs.length →
          demoJobs.length - 2 ≤ (demoJobs.filter (fun j => j.status != "running")).length →
          (cleanup_old_jobs demoJobs 2).length = 2)) :=
  ⟨⟨by decide, by decide⟩, cleanup_retention_spec demoJobs 2 (by decide)⟩

/-- Helper: one tracker operation preserves the counter invariant. -/
theorem applyOp_preserves_counters (s : List Job) (op : TrackerOp)
    (hs : ∀ j ∈ s, j.completed = j.success + j.errors
      ∧ j.completed = j.results.length) :
    ∀ j ∈ applyOp s op,
      j.completed = j.success + j.errors ∧ j.completed = j.results.length := by
  intro j hj
  cases op with
  | create id jt total now =>
    rcases List.mem_append.1 hj with h | h
    · exact hs j h
    · rw [List.mem_singleton.1 h]
      exact ⟨rfl, rfl⟩
  | add_log id time level msg =>
    simp only [applyOp, updateJob] at hj
    obtain ⟨j0, hj0, rfl⟩ := List.mem_map.1 hj
    by_cases h : j0.id = id
    · simp only [if_pos h]
      exact hs j0 hj0
    · simp only [if_neg h]
      exact hs j0 hj0
  | set_current id url name =>
    simp only [applyOp, updateJob] at hj
    obtain ⟨j0, hj0, rfl⟩ := List.mem_map.1 hj
    by_cases h : j0.id = id
    · simp only [if_pos h]
      exact hs j0 hj0
    · simp only [if_neg h]
      exact hs j0 hj0
  | complete_job id apk now =>
    simp only [applyOp, updateJob] at hj
    obtain ⟨j0, hj0, rfl⟩ := List.mem_map.1 hj
    by_cases h : j0.id = id
    · simp only [if_pos h]
      exact hs j0 hj0
    · simp only [if_neg h]
      exact hs j0 hj0
  | fail_job id err time now =>
    simp only [applyOp, updateJob] at hj
    obtain ⟨j0, hj0, rfl⟩ := List.mem_map.1 hj
    by_cases h : j0.id = id
    · simp only [if_pos h]
      exact hs j0 hj0
    · simp only [if_neg h]
      exact hs j0 hj0
  | mark_store_done id url name ok score priority err =>
    simp only [applyOp, updateJob] at hj
    obtain ⟨j0, hj0, rfl⟩ := List.mem_map.1 hj
    obtain ⟨h1, h2⟩ := hs j0 hj0
    by_cases h : j0.id = id
    · simp only [if_pos h, bumpDone]
      refine ⟨?_, ?_⟩
      · cases ok <;> simp <;> omega
      · simp [h2]
    · simp only [if_neg h]
      exact ⟨h1, h2⟩
  | cleanup cap =>
    have hmem : j ∈ s := by
      simp only [applyOp] at hj
      unfold cleanup_old_jobs at hj
      by_cases h : cap < s.length
      · rw [if_pos h] at hj
        exact List.mem_of_mem_filter hj
      · rw [if_neg h] at hj
        exact hj
    exact hs j hmem

/-- Helper: the invariant propagates along any operation sequence. -/
theorem foldl_preserves_counters (ops : List TrackerOp) :
    ∀ s : List Job,
      (∀ j ∈ s, j.completed = j.success + j.errors ∧ j.completed = j.results.length) →
      ∀ j ∈ List.foldl applyOp s ops,
        j.completed = j.success + j.errors ∧ j.completed = j.results.length := by
  induction ops with
  | nil => intro s hs; simpa using hs
  | cons op rest ih =>
    intro s hs
    exact ih (applyOp s op) (applyOp_preserves_counters s op hs)

/-- C10: after any operation sequence every tracked job satisfies
`completed = success + errors = results.length`; a freshly created job
starts at zero counters and an empty results list; no operation other than
mark-one-unit-done changes the counters or the results list of any surviving
job; and mark-one-unit-done increments `completed` by one, exactly one of
`success`/`errors` by one, and appends exactly one result entry to the
matching job. -/
theorem tracker_counters_invariant :
    (∀ ops : List TrackerOp, ∀ j ∈ applyOps ops,
      j.completed = j.success + j.errors ∧ j.completed = j.results.length)
    ∧ (∀ (id : Nat) (jt : String) (total now : Nat),
        (create_job id jt total now).completed = 0
        ∧ (create_job id jt total now).success = 0
        ∧ (create_job id jt total now).errors = 0
        ∧ (create_job id jt total now).results = [])
    ∧ (∀ (s : List Job) (op : TrackerOp), isMark op = false →
        ∀ j' ∈ applyOp s op,
          (∃ j ∈ s, j'.completed = j.completed ∧ j'.success = j.success
            ∧ j'.errors = j.errors ∧ j'.results = j.results)
          ∨ (j'.completed = 0 ∧ j'.success = 0 ∧ j'.errors = 0 ∧ j'.results = []))
    ∧ (∀ (s : List Job) (id : Nat) (url name : String) (ok : Bool) (score : Nat)
        (priority err : String),
        applyOp s (.mark_store_done id url name ok score priority err)
          = s.map (fun j => if j.id = id then
              { j with completed := j.completed + 1,
                       success := j.success + (if ok then 1 else 0),
                       errors := j.errors + (if ok then 0 else 1),
                       results := j.results
                         ++ [⟨url, name, ok, score, priority, err⟩] }
              else j)) := by
  refine ⟨?_, ?_, ?_, ?_⟩
  · intro ops j hj
    exact foldl_preserves_counters ops [] (by simp) j hj
  · intro id jt total now
    exact ⟨rfl, rfl, rfl, rfl⟩
  · intro s op hmark j' hj'
    cases op with
    | mark_store_done id url name ok score priority err => simp [isMark] at hmark
    | create id jt total now =>
      rcases List.mem_append.1 hj' with h | h
      · exact Or.inl ⟨j', h, rfl, rfl, rfl, rfl⟩
      · rw [List.mem_singleton.1 h]
        exact Or.inr ⟨rfl, rfl, rfl, rfl⟩
    | add_log id time level msg =>
      simp only [applyOp, updateJob] at hj'
      obtain ⟨j0, hj0, rfl⟩ := List.mem_map.1 hj'
      by_cases h : j0.id = id
      · simp only [if_pos h]
        exact Or.inl ⟨j0, hj0, rfl, rfl, rfl, rfl⟩
      · simp only [if_neg h]
        exact Or.inl ⟨j0, hj0, rfl, rfl, rfl, rfl⟩
    | set_current id url name =>
      simp only [applyOp, updateJob] at hj'
      obtain ⟨j0, hj0, rfl⟩ := List.mem_map.1 hj'
      by_cases h : j0.id = id
      · simp only [if_pos h]
        exact Or.inl ⟨j0, hj0, rfl, rfl, rfl, rfl⟩
      · simp only [if_neg h]
        exact Or.inl ⟨j0, hj0, rfl, rfl, rfl, rfl⟩
    | complete_job id apk now =>
      simp only [applyOp, updateJob] at hj'
      obtain ⟨j0, hj0, rfl⟩ := List.mem_map.1 hj'
      by_cases h : j0.id = id
      · simp only [if_pos h]
        exact Or.inl ⟨j0, hj0, rfl, rfl, rfl, rfl⟩
      · simp only [if_neg h]
        exact Or.inl ⟨j0, hj0, rfl, rfl, rfl, rfl⟩
    | fail_job id err time now =>
      simp only [applyOp, updateJob] at hj'
      obtain ⟨j0, hj0, rfl⟩ := List.mem_map.1 hj'
      by_cases h : j0.id = id
      · simp only [if_pos h]
        exact Or.inl ⟨j0, hj0, rfl, rfl, rfl, rfl⟩
      · simp only [if_neg h]
        exact Or.inl ⟨j0, hj0, rfl, rfl, rfl, rfl⟩
    | cleanup cap =>
      have hmem : j' ∈ s := by
        simp only [applyOp] at hj'
        unfold cleanup_old_jobs at hj'
        by_cases h : cap < s.length
        · rw [if_pos h] at hj'
          exact List.mem_of_mem_filter hj'
        · rw [if_neg h] at hj'
          exact hj'
      exact Or.inl ⟨j', hmem, rfl, rfl, rfl, rfl⟩
  · intro s id url name ok score priority err
    rfl

/-- Witness for C10: after the sample operation history the surviving job
satisfies the counter invariant. -/
theorem tracker_counters_invariant_witness :
    demoJobFinal ∈ applyOps demoOps
    ∧ (demoJobFinal.completed = demoJobFinal.success + demoJobFinal.errors
      ∧ demoJobFinal.completed = demoJobFinal.results.length) :=
  ⟨by decide, tracker_counters_invariant.1 demoOps demoJobFinal (by decide)⟩

end PhotoAgency
